import Mathlib

/-!
Shallow embedding of the `bevy_resolution` crate (file `src/resolutions.rs`),
together with proofs about its resolution / aspect-ratio arithmetic.

Modelling choices:
* `f32` values are modelled as exact rationals `ℚ`.
* Rust's `%` on floats (remainder, truncated toward zero) is modelled by `fmod`.
* the `unwrap` inside `Resolution::aspect_ratio` can panic; a call that may
  reach it is modelled in `Option`, with `none` standing for the panic.
-/

namespace BevyRes

/-- Truncation toward zero of a rational, as `f32` truncation behaves. -/
def trunc (q : ℚ) : ℤ := if q < 0 then ⌈q⌉ else ⌊q⌋

/-- Rust `a % b` on floats: `a - b * trunc (a / b)`. -/
def fmod (a b : ℚ) : ℚ := a - b * ((trunc (a / b) : ℤ) : ℚ)

/-- `bevy_math::AspectRatio`: a newtype over the ratio value returned by `ratio()`. -/
structure AspectRatio where
  ratio : ℚ
deriving DecidableEq

/-- `bevy_math::AspectRatio::SIXTEEN_NINE`. -/
def AspectRatio.SIXTEEN_NINE : AspectRatio := ⟨16 / 9⟩

/-- `bevy_math::AspectRatio::FOUR_THREE`. -/
def AspectRatio.FOUR_THREE : AspectRatio := ⟨4 / 3⟩

/-- `bevy_math::AspectRatio::try_new`: errors on a zero width or height
(NaN and the infinities of `f32` do not exist in the rational model). -/
def AspectRatio.try_new (width height : ℚ) : Option AspectRatio :=
  if width = 0 ∨ height = 0 then none else some ⟨width / height⟩

/-- `bevy_math::Vec2`. -/
structure Vec2 where
  x : ℚ
  y : ℚ
deriving DecidableEq

/-- `bevy_math::Vec2::splat`. -/
def Vec2.splat (v : ℚ) : Vec2 := ⟨v, v⟩

/-- `AspectRatioMode` of resolutions.rs. -/
inductive AspectRatioMode where
  | Dynamic : AspectRatioMode
  | Set : AspectRatio → AspectRatioMode
deriving DecidableEq

/-- `AspectRatioMode::is_dynamic`. -/
def AspectRatioMode.is_dynamic : AspectRatioMode → Bool
  | AspectRatioMode.Dynamic => true
  | AspectRatioMode.Set _ => false

/-- `Resolution` of resolutions.rs: width, height and the private mode field
`aspect_ratio`. -/
structure Resolution where
  width : ℚ
  height : ℚ
  aspect_ratio : AspectRatioMode
deriving DecidableEq

/-- `Resolution::new`: dynamic mode. -/
def Resolution.new (width height : ℚ) : Resolution :=
  ⟨width, height, AspectRatioMode.Dynamic⟩

/-- `Resolution::from_height`: `width = height * aspect_ratio.ratio()`. -/
def Resolution.from_height (height : ℚ) (ar : AspectRatio) : Resolution :=
  ⟨height * ar.ratio, height, AspectRatioMode.Set ar⟩

/-- `Resolution::from_width`: `height = width / aspect_ratio.ratio()`. -/
def Resolution.from_width (width : ℚ) (ar : AspectRatio) : Resolution :=
  ⟨width, width / ar.ratio, AspectRatioMode.Set ar⟩

/-- `Resolution::aspect_ratio()` (the accessor method): in `Dynamic` mode it
unwraps `AspectRatio::try_new(self.width, self.height)`; `none` is the panic. -/
def Resolution.aspectRatio (r : Resolution) : Option AspectRatio :=
  match r.aspect_ratio with
  | AspectRatioMode.Dynamic => AspectRatio.try_new r.width r.height
  | AspectRatioMode.Set ar => some ar

/-- `Resolution::change_height`.  The maintaining branch reads
`self.aspect_ratio()` (a possible panic, hence `Option`), recomputes the width
only when `self.width / height != ratio`, and always sets the height. -/
def Resolution.change_height (r : Resolution) (height : ℚ)
    (maintain_aspect_ratio : Bool) : Option Resolution :=
  if maintain_aspect_ratio then
    match r.aspectRatio with
    | none => none
    | some ar =>
      let r1 := if r.width / height ≠ ar.ratio
        then { r with width := height * ar.ratio } else r
      some { r1 with height := height }
  else
    some { r with aspect_ratio := AspectRatioMode.Dynamic, height := height }

/-- `Resolution::change_width`.  Note: the maintaining branch of the source
assigns `self.height = self.width / self.aspect_ratio().ratio()`, reading the
OLD width, not the `width` argument. -/
def Resolution.change_width (r : Resolution) (width : ℚ)
    (maintain_aspect_ratio : Bool) : Option Resolution :=
  if maintain_aspect_ratio then
    match r.aspectRatio with
    | none => none
    | some ar =>
      let r1 := if width / r.height ≠ ar.ratio
        then { r with height := r.width / ar.ratio } else r
      some { r1 with width := width }
  else
    some { r with aspect_ratio := AspectRatioMode.Dynamic, width := width }

/-- `Resolution::change_ratio`. -/
def Resolution.change_ratio (r : Resolution) (ratio : AspectRatio) : Resolution :=
  { r with aspect_ratio := AspectRatioMode.Set ratio, width := r.height * ratio.ratio }

/-- `Resolution::scale_and_keep_aspect_ratio`.  The outer `Option` models the
possible panic of the `self.aspect_ratio()` call; the inner `Option` is the
Rust return value (`none` = the rejected anisotropic scale). -/
def Resolution.scale_and_keep_aspect_ratio (r : Resolution) (scalar : Vec2) :
    Option (Option Resolution) :=
  match r.aspectRatio with
  | none => none
  | some ar =>
    if (r.width * scalar.x) / (r.height * scalar.y) ≠ ar.ratio then some none
    else some (some { width := r.width * scalar.x, height := r.height * scalar.y,
                      aspect_ratio := r.aspect_ratio })

/-- `Resolution::scale`.  Total: the `self.aspect_ratio()` call is
short-circuited away in `Dynamic` mode and safe in `Set` mode. -/
def Resolution.scale (r : Resolution) (scalar : Vec2) : Resolution :=
  let ratio := (r.width * scalar.x) / (r.height * scalar.y)
  match r.aspect_ratio with
  | AspectRatioMode.Dynamic =>
    { r with width := r.width * scalar.x, height := r.height * scalar.y }
  | AspectRatioMode.Set ar =>
    if ar.ratio = ratio then
      { r with width := r.width * scalar.x, height := r.height * scalar.y }
    else
      { width := r.width * scalar.x, height := r.height * scalar.y,
        aspect_ratio := AspectRatioMode.Dynamic }

/-- Free function `has_integer_scale(to, from)` of resolutions.rs. -/
def has_integer_scale (to_ : Resolution) (from_ : Resolution) : Option Bool :=
  match from_.aspectRatio, to_.aspectRatio with
  | some arf, some art =>
    if arf.ratio ≠ art.ratio then some false
    else if from_.height < to_.height then
      some (decide (fmod (to_.height / from_.height) 1 = 0))
    else
      some (decide (fmod (from_.height / to_.height) 1 = 0))
  | _, _ => none

/-- Free function `get_scale_factor(to, from)` of resolutions.rs. -/
def get_scale_factor (to_ : Resolution) (from_ : Resolution) : Option Vec2 :=
  match from_.aspectRatio, to_.aspectRatio with
  | some arf, some art =>
    if arf.ratio ≠ art.ratio then
      some ⟨from_.width / to_.width, from_.height / to_.height⟩
    else
      some (Vec2.splat (from_.height / to_.height))
  | _, _ => none

/-- Free function `fits_aspect_ratio(height, aspect_ratio)`. -/
def fits_aspect_ratio (height : ℚ) (aspect_ratio : AspectRatio) : Bool :=
  decide (fmod (height * aspect_ratio.ratio) 1 = 0)

/-- Free function `resolution_fits_aspect_ratio(resolution, aspect_ratio)`. -/
def resolution_fits_aspect_ratio (resolution : Resolution)
    (aspect_ratio : AspectRatio) : Bool :=
  fits_aspect_ratio resolution.height aspect_ratio

/-- `r360p`. -/
def r360p (aspect_ratio : AspectRatio) : Resolution :=
  Resolution.from_height 360 aspect_ratio

/-- `r480p`. -/
def r480p (aspect_ratio : AspectRatio) : Resolution :=
  Resolution.from_height 480 aspect_ratio

/-- `r720p`. -/
def r720p (aspect_ratio : AspectRatio) : Resolution :=
  Resolution.from_height 720 aspect_ratio

/-- `r1080p`. -/
def r1080p (aspect_ratio : AspectRatio) : Resolution :=
  Resolution.from_height 1080 aspect_ratio

/-- `r1440p`. -/
def r1440p (aspect_ratio : AspectRatio) : Resolution :=
  Resolution.from_height 1440 aspect_ratio



theorem trunc_intCast (n : ℤ) : trunc (n : ℚ) = n := by
  unfold trunc
  split
  · exact Int.ceil_intCast n
  · exact Int.floor_intCast n

theorem fmod_one_eq_zero_iff (x : ℚ) : fmod x 1 = 0 ↔ ∃ n : ℤ, x = (n : ℚ) := by
  unfold fmod
  rw [div_one]
  constructor
  · intro h
    exact ⟨trunc x, by linarith⟩
  · rintro ⟨n, rfl⟩
    rw [trunc_intCast]
    ring

/-- C1 evidence: on `r360p(16:9)`, `change_width(1280, maintain=true)` leaves the
height at 360 (it divides the OLD width 640 by the ratio), while the new width
divided by the ratio is 720 — the value the crate's own `changes` test asserts. -/
theorem change_width_maintain_uses_stale_width :
    ((r360p AspectRatio.SIXTEEN_NINE).change_width 1280 true).map Resolution.height
      = some 360 ∧
    (1280 : ℚ) / AspectRatio.SIXTEEN_NINE.ratio = 720 := by
  constructor
  · simp only [r360p, Resolution.from_height, Resolution.change_width,
      Resolution.aspectRatio, AspectRatio.SIXTEEN_NINE]
    norm_num
  · simp only [AspectRatio.SIXTEEN_NINE]
    norm_num


/-- C3: `scale` multiplies width by `scalar.x` and height by `scalar.y`; a
`Dynamic` mode stays `Dynamic`, and a `Set` (Fixed) mode is kept exactly when
the post-scale ratio equals the fixed ratio, degrading to `Dynamic` otherwise. -/
theorem scale_dimensions_and_mode (r : Resolution) (v : Vec2) :
    (r.scale v).width = r.width * v.x ∧ (r.scale v).height = r.height * v.y ∧
    (r.scale v).aspect_ratio = (match r.aspect_ratio with
      | AspectRatioMode.Dynamic => AspectRatioMode.Dynamic
      | AspectRatioMode.Set ar =>
        if (r.width * v.x) / (r.height * v.y) = ar.ratio then AspectRatioMode.Set ar
        else AspectRatioMode.Dynamic) := by
  rcases r with ⟨w, h, mode⟩
  cases mode with
  | Dynamic => exact ⟨rfl, rfl, rfl⟩
  | Set ar =>
    have hs : Resolution.scale ⟨w, h, AspectRatioMode.Set ar⟩ v =
        if ar.ratio = (w * v.x) / (h * v.y) then
          (⟨w * v.x, h * v.y, AspectRatioMode.Set ar⟩ : Resolution)
        else ⟨w * v.x, h * v.y, AspectRatioMode.Dynamic⟩ := rfl
    by_cases hc : ar.ratio = (w * v.x) / (h * v.y)
    · rw [hs, if_pos hc]
      refine ⟨rfl, rfl, ?_⟩
      show AspectRatioMode.Set ar
        = if (w * v.x) / (h * v.y) = ar.ratio then AspectRatioMode.Set ar
          else AspectRatioMode.Dynamic
      rw [if_pos hc.symm]
    · rw [hs, if_neg hc]
      refine ⟨rfl, rfl, ?_⟩
      show AspectRatioMode.Dynamic
        = if (w * v.x) / (h * v.y) = ar.ratio then AspectRatioMode.Set ar
          else AspectRatioMode.Dynamic
      rw [if_neg (fun h1 => hc h1.symm)]

/-- C9: the accessor `aspect_ratio()` always returns the stored ratio in `Set`
(Fixed) mode, whatever the width and height; it fails (`none`, the panic of the
`unwrap`) exactly in `Dynamic` mode with a zero width or height; and `new(w, 0)`
builds such a zero-height `Dynamic` resolution. -/
theorem aspect_ratio_panic_only_in_dynamic :
    (∀ (w h : ℚ) (ar : AspectRatio),
        Resolution.aspectRatio ⟨w, h, AspectRatioMode.Set ar⟩ = some ar) ∧
    (∀ r : Resolution,
        r.aspectRatio = none ↔
          r.aspect_ratio = AspectRatioMode.Dynamic ∧ (r.width = 0 ∨ r.height = 0)) ∧
    (∀ w : ℚ, Resolution.new w 0 = ⟨w, 0, AspectRatioMode.Dynamic⟩ ∧
        (Resolution.new w 0).aspectRatio = none) := by
  refine ⟨fun w h ar => rfl, fun r => ?_, fun w => ⟨rfl, ?_⟩⟩
  · rcases r with ⟨w, h, mode⟩
    cases mode with
    | Dynamic =>
      by_cases hz : w = 0 ∨ h = 0 <;>
        simp [Resolution.aspectRatio, AspectRatio.try_new, hz]
    | Set ar => simp [Resolution.aspectRatio]
  · simp [Resolution.new, Resolution.aspectRatio, AspectRatio.try_new]

/-- C4: `change_height(h, true)` sets the height to `h`, ends with width equal
to `h` times the current ratio (recomputing only when needed), and keeps the
mode; `change_height(h, false)` keeps the width and switches to `Dynamic`; on
`r360p(16:9)` the widths are 1280 and 640 respectively. -/
theorem change_height_true_eq (r : Resolution) (h : ℚ) (ar : AspectRatio)
    (har : r.aspectRatio = some ar) (hh : h ≠ 0) :
    r.change_height h true = some ⟨h * ar.ratio, h, r.aspect_ratio⟩ := by
  simp only [Resolution.change_height, if_true, har]
  by_cases hc : r.width / h ≠ ar.ratio
  · rw [if_pos hc]
  · rw [if_neg hc]
    push_neg at hc
    have hw : r.width = h * ar.ratio := by
      rw [div_eq_iff hh] at hc
      rw [hc]; ring
    simp [hw]

theorem change_height_spec (r : Resolution) (h : ℚ) (ar : AspectRatio)
    (har : r.aspectRatio = some ar) (hh : h ≠ 0) :
    r.change_height h true = some ⟨h * ar.ratio, h, r.aspect_ratio⟩ ∧
    r.change_height h false = some ⟨r.width, h, AspectRatioMode.Dynamic⟩ ∧
    ((r360p AspectRatio.SIXTEEN_NINE).change_height 720 true).map Resolution.width
      = some 1280 ∧
    ((r360p AspectRatio.SIXTEEN_NINE).change_height 720 false).map Resolution.width
      = some 640 := by
  refine ⟨change_height_true_eq r h ar har hh, rfl, ?_, ?_⟩
  · simp only [r360p, Resolution.from_height, Resolution.change_height,
      Resolution.aspectRatio, AspectRatio.SIXTEEN_NINE]
    norm_num
  · simp only [r360p, Resolution.from_height, Resolution.change_height,
      Resolution.aspectRatio, AspectRatio.SIXTEEN_NINE]
    norm_num

theorem change_height_spec_witness :
    ((r360p AspectRatio.SIXTEEN_NINE).change_height 720 true).map Resolution.width
      = some 1280 ∧
    ((r360p AspectRatio.SIXTEEN_NINE).change_height 720 false).map Resolution.width
      = some 640 :=
  ⟨(change_height_spec (r360p AspectRatio.SIXTEEN_NINE) 720 AspectRatio.SIXTEEN_NINE
      rfl (by norm_num)).2.2.1,
   (change_height_spec (r360p AspectRatio.SIXTEEN_NINE) 720 AspectRatio.SIXTEEN_NINE
      rfl (by norm_num)).2.2.2⟩


theorem aspectRatio_dynamic (w h : ℚ) :
    Resolution.aspectRatio ⟨w, h, AspectRatioMode.Dynamic⟩ = AspectRatio.try_new w h := rfl

theorem try_new_eq_some (w h : ℚ) (ar : AspectRatio) :
    AspectRatio.try_new w h = some ar ↔ w ≠ 0 ∧ h ≠ 0 ∧ ar = ⟨w / h⟩ := by
  unfold AspectRatio.try_new
  by_cases hz : w = 0 ∨ h = 0
  · rw [if_pos hz]
    constructor
    · intro hx; cases hx
    · rintro ⟨hw, hh, -⟩
      exact absurd hz (by tauto)
  · rw [if_neg hz]
    push_neg at hz
    constructor
    · intro hx
      injection hx with hx
      exact ⟨hz.1, hz.2, hx.symm⟩
    · rintro ⟨-, -, rfl⟩; rfl

/-- C2: `scale_and_keep_aspect_ratio` is the guarded restriction of `scale`:
it rejects (inner `none`) exactly when the scaled pair's ratio differs from the
current aspect ratio, and on success returns `scale`'s result with the mode
field carried over unchanged and the same observable aspect ratio; on
`r360p(16:9)` an anisotropic `(1, 2)` scale is rejected and `splat 2` gives
`r720p(16:9)`. -/
theorem scale_and_keep_aspect_ratio_refines_scale (r : Resolution) (v : Vec2)
    (ar : AspectRatio) (har : r.aspectRatio = some ar) :
    (r.scale_and_keep_aspect_ratio v = some none ↔
        (r.width * v.x) / (r.height * v.y) ≠ ar.ratio) ∧
    (∀ r1, r.scale_and_keep_aspect_ratio v = some (some r1) →
        r1 = r.scale v ∧ r1.aspect_ratio = r.aspect_ratio ∧
        r1.aspectRatio = r.aspectRatio) ∧
    ((r360p AspectRatio.SIXTEEN_NINE).scale_and_keep_aspect_ratio ⟨1, 2⟩
        = some none ∧
     (r360p AspectRatio.SIXTEEN_NINE).scale_and_keep_aspect_ratio (Vec2.splat 2)
        = some (some (r720p AspectRatio.SIXTEEN_NINE))) := by
  have hu : r.scale_and_keep_aspect_ratio v =
      if (r.width * v.x) / (r.height * v.y) ≠ ar.ratio then some none
      else some (some ⟨r.width * v.x, r.height * v.y, r.aspect_ratio⟩) := by
    unfold Resolution.scale_and_keep_aspect_ratio
    rw [har]
  refine ⟨?_, ?_, ?_, ?_⟩
  · by_cases hc : (r.width * v.x) / (r.height * v.y) ≠ ar.ratio
    · rw [hu, if_pos hc]
      exact iff_of_true rfl hc
    · rw [hu, if_neg hc]
      exact iff_of_false (by simp) hc
  · intro r1 h1
    rw [hu] at h1
    by_cases hc : (r.width * v.x) / (r.height * v.y) ≠ ar.ratio
    · rw [if_pos hc] at h1
      cases h1
    · rw [if_neg hc] at h1
      push_neg at hc
      injection h1 with h1
      injection h1 with h1
      subst h1
      rcases r with ⟨w, h, mode⟩
      cases mode with
      | Dynamic =>
        rw [aspectRatio_dynamic, try_new_eq_some] at har
        rcases har with ⟨hw, hh, rfl⟩
        dsimp only at hc
        have hr0 : w / h ≠ 0 := div_ne_zero hw hh
        have hx : w * v.x ≠ 0 := by
          intro h0
          rw [h0, zero_div] at hc
          exact hr0 hc.symm
        have hy : h * v.y ≠ 0 := by
          intro h0
          rw [h0, div_zero] at hc
          exact hr0 hc.symm
        refine ⟨rfl, rfl, ?_⟩
        show AspectRatio.try_new (w * v.x) (h * v.y) = AspectRatio.try_new w h
        rw [(try_new_eq_some w h ⟨w / h⟩).mpr ⟨hw, hh, rfl⟩, try_new_eq_some]
        refine ⟨hx, hy, ?_⟩
        rw [hc]
      | Set ar2 =>
        have har2 : ar2 = ar := by
          injection har
        subst har2
        refine ⟨?_, rfl, rfl⟩
        show _ = Resolution.scale ⟨w, h, AspectRatioMode.Set ar2⟩ v
        have hs : Resolution.scale ⟨w, h, AspectRatioMode.Set ar2⟩ v =
            if ar2.ratio = (w * v.x) / (h * v.y) then
              (⟨w * v.x, h * v.y, AspectRatioMode.Set ar2⟩ : Resolution)
            else ⟨w * v.x, h * v.y, AspectRatioMode.Dynamic⟩ := rfl
        rw [hs, if_pos hc.symm]
  · simp only [r360p, Resolution.from_height, Resolution.scale_and_keep_aspect_ratio,
      Resolution.aspectRatio, AspectRatio.SIXTEEN_NINE]
    norm_num
  · simp only [r360p, r720p, Resolution.from_height,
      Resolution.scale_and_keep_aspect_ratio, Resolution.aspectRatio,
      AspectRatio.SIXTEEN_NINE, Vec2.splat]
    norm_num


theorem scale_and_keep_aspect_ratio_refines_scale_witness :
    ((r360p AspectRatio.SIXTEEN_NINE).scale_and_keep_aspect_ratio ⟨1, 2⟩
        = some none ∧
     (r360p AspectRatio.SIXTEEN_NINE).scale_and_keep_aspect_ratio (Vec2.splat 2)
        = some (some (r720p AspectRatio.SIXTEEN_NINE))) :=
  (scale_and_keep_aspect_ratio_refines_scale (r360p AspectRatio.SIXTEEN_NINE)
    (Vec2.splat 2) AspectRatio.SIXTEEN_NINE rfl).2.2

theorem fmod_div_eq_zero_iff (x y : ℚ) (hy : y ≠ 0) :
    fmod (x / y) 1 = 0 ↔ ∃ n : ℤ, x = (n : ℚ) * y := by
  rw [fmod_one_eq_zero_iff]
  constructor
  · rintro ⟨n, hn⟩
    rw [div_eq_iff hy] at hn
    exact ⟨n, hn⟩
  · rintro ⟨n, rfl⟩
    exact ⟨n, by field_simp⟩

/-- C5: with both aspect ratios defined and positive heights,
`has_integer_scale` returns `false` when the ratios differ by value, and
otherwise returns `true` exactly when the larger height is an integer multiple
of the smaller one. -/
theorem has_integer_scale_spec (a b : Resolution) (ara arb : AspectRatio)
    (ha : a.aspectRatio = some ara) (hb : b.aspectRatio = some arb)
    (hpa : 0 < a.height) (hpb : 0 < b.height) :
    (ara.ratio ≠ arb.ratio → has_integer_scale a b = some false) ∧
    (ara.ratio = arb.ratio →
      (has_integer_scale a b = some true ↔
        ∃ n : ℤ, max a.height b.height = (n : ℚ) * min a.height b.height)) := by
  have hu : has_integer_scale a b =
      if arb.ratio ≠ ara.ratio then some false
      else if b.height < a.height then
        some (decide (fmod (a.height / b.height) 1 = 0))
      else some (decide (fmod (b.height / a.height) 1 = 0)) := by
    unfold has_integer_scale
    rw [ha, hb]
  constructor
  · intro hne
    rw [hu, if_pos (Ne.symm hne)]
  · intro heq
    rw [hu, if_neg (not_not_intro heq.symm)]
    by_cases hlt : b.height < a.height
    · rw [if_pos hlt, max_eq_left (le_of_lt hlt), min_eq_right (le_of_lt hlt)]
      simp only [Option.some.injEq, decide_eq_true_eq]
      exact fmod_div_eq_zero_iff _ _ (ne_of_gt hpb)
    · rw [if_neg hlt]
      push_neg at hlt
      rw [max_eq_right hlt, min_eq_left hlt]
      simp only [Option.some.injEq, decide_eq_true_eq]
      exact fmod_div_eq_zero_iff _ _ (ne_of_gt hpa)

theorem has_integer_scale_spec_witness :
    has_integer_scale (r360p AspectRatio.SIXTEEN_NINE) (r720p AspectRatio.SIXTEEN_NINE)
        = some true ↔
      ∃ n : ℤ,
        max (r360p AspectRatio.SIXTEEN_NINE).height (r720p AspectRatio.SIXTEEN_NINE).height
          = (n : ℚ) *
            min (r360p AspectRatio.SIXTEEN_NINE).height (r720p AspectRatio.SIXTEEN_NINE).height :=
  (has_integer_scale_spec (r360p AspectRatio.SIXTEEN_NINE)
    (r720p AspectRatio.SIXTEEN_NINE) AspectRatio.SIXTEEN_NINE AspectRatio.SIXTEEN_NINE
    rfl rfl (by norm_num [r360p, Resolution.from_height])
    (by norm_num [r720p, Resolution.from_height])).2 rfl

/-- C6: `fits_aspect_ratio(h, ratio)` holds exactly when `h * ratio` is a whole
number (the implied width has no fractional pixel); 360 fits 16:9, 480 does
not fit 16:9, 480 fits 4:3; and `resolution_fits_aspect_ratio` delegates to
`fits_aspect_ratio` on the stored height. -/
theorem fits_aspect_ratio_spec :
    (∀ (h : ℚ) (ar : AspectRatio),
        fits_aspect_ratio h ar = true ↔ ∃ n : ℤ, h * ar.ratio = (n : ℚ)) ∧
    fits_aspect_ratio 360 AspectRatio.SIXTEEN_NINE = true ∧
    fits_aspect_ratio 480 AspectRatio.SIXTEEN_NINE = false ∧
    fits_aspect_ratio 480 AspectRatio.FOUR_THREE = true ∧
    ∀ (r : Resolution) (ar : AspectRatio),
        resolution_fits_aspect_ratio r ar = fits_aspect_ratio r.height ar := by
  have hiff : ∀ (h : ℚ) (ar : AspectRatio),
      fits_aspect_ratio h ar = true ↔ ∃ n : ℤ, h * ar.ratio = (n : ℚ) := by
    intro h ar
    unfold fits_aspect_ratio
    rw [decide_eq_true_eq]
    exact fmod_one_eq_zero_iff _
  refine ⟨hiff, ?_, ?_, ?_, fun r ar => rfl⟩
  · rw [hiff]
    exact ⟨640, by norm_num [AspectRatio.SIXTEEN_NINE]⟩
  · refine Bool.eq_false_iff.mpr ?_
    rw [Ne, hiff]
    rintro ⟨n, hn⟩
    norm_num [AspectRatio.SIXTEEN_NINE] at hn
    have h1 : (2560 : ℚ) = 3 * (n : ℚ) := by
      field_simp at hn
      linarith
    have h2 : (2560 : ℤ) = 3 * n := by exact_mod_cast h1
    omega
  · rw [hiff]
    exact ⟨640, by norm_num [AspectRatio.FOUR_THREE]⟩

/-- C7: when the two aspect ratios agree by value and the heights are nonzero,
the two scale factors are mutually inverse isotropic vectors, both given by the
ratio of the heights. -/
theorem get_scale_factor_isotropic (a b : Resolution) (ara arb : AspectRatio)
    (ha : a.aspectRatio = some ara) (hb : b.aspectRatio = some arb)
    (heq : ara.ratio = arb.ratio) (hha : a.height ≠ 0) (hhb : b.height ≠ 0) :
    ∃ k : ℚ, k ≠ 0 ∧
      get_scale_factor b a = some (Vec2.splat k) ∧
      get_scale_factor a b = some (Vec2.splat k⁻¹) := by
  have hu1 : get_scale_factor b a =
      if ara.ratio ≠ arb.ratio then some ⟨a.width / b.width, a.height / b.height⟩
      else some (Vec2.splat (a.height / b.height)) := by
    unfold get_scale_factor
    rw [ha, hb]
  have hu2 : get_scale_factor a b =
      if arb.ratio ≠ ara.ratio then some ⟨b.width / a.width, b.height / a.height⟩
      else some (Vec2.splat (b.height / a.height)) := by
    unfold get_scale_factor
    rw [ha, hb]
  refine ⟨a.height / b.height, div_ne_zero hha hhb, ?_, ?_⟩
  · rw [hu1, if_neg (not_not_intro heq)]
  · rw [hu2, if_neg (not_not_intro heq.symm), inv_div]

theorem get_scale_factor_isotropic_witness :
    ∃ k : ℚ, k ≠ 0 ∧
      get_scale_factor (r720p AspectRatio.SIXTEEN_NINE) (r360p AspectRatio.SIXTEEN_NINE)
        = some (Vec2.splat k) ∧
      get_scale_factor (r360p AspectRatio.SIXTEEN_NINE) (r720p AspectRatio.SIXTEEN_NINE)
        = some (Vec2.splat k⁻¹) :=
  get_scale_factor_isotropic (r360p AspectRatio.SIXTEEN_NINE)
    (r720p AspectRatio.SIXTEEN_NINE) AspectRatio.SIXTEEN_NINE AspectRatio.SIXTEEN_NINE
    rfl rfl rfl (by norm_num [r360p, Resolution.from_height])
    (by norm_num [r720p, Resolution.from_height])

/-- C8: `has_integer_scale` is symmetric in its two resolutions. -/
theorem has_integer_scale_symmetric (a b : Resolution) (ara arb : AspectRatio)
    (ha : a.aspectRatio = some ara) (hb : b.aspectRatio = some arb)
    (_hpa : 0 < a.height) (_hpb : 0 < b.height) :
    has_integer_scale a b = has_integer_scale b a := by
  have hu1 : has_integer_scale a b =
      if arb.ratio ≠ ara.ratio then some false
      else if b.height < a.height then
        some (decide (fmod (a.height / b.height) 1 = 0))
      else some (decide (fmod (b.height / a.height) 1 = 0)) := by
    unfold has_integer_scale
    rw [ha, hb]
  have hu2 : has_integer_scale b a =
      if ara.ratio ≠ arb.ratio then some false
      else if a.height < b.height then
        some (decide (fmod (b.height / a.height) 1 = 0))
      else some (decide (fmod (a.height / b.height) 1 = 0)) := by
    unfold has_integer_scale
    rw [ha, hb]
  rw [hu1, hu2]
  by_cases hr : arb.ratio ≠ ara.ratio
  · rw [if_pos hr, if_pos (Ne.symm hr)]
  · push_neg at hr
    rw [if_neg (not_not_intro hr), if_neg (not_not_intro hr.symm)]
    rcases lt_trichotomy a.height b.height with hlt | hheq | hgt
    · rw [if_neg (lt_asymm hlt), if_pos hlt]
    · rw [hheq]
    · rw [if_pos hgt, if_neg (lt_asymm hgt)]

theorem has_integer_scale_symmetric_witness :
    has_integer_scale (r360p AspectRatio.SIXTEEN_NINE) (r720p AspectRatio.SIXTEEN_NINE)
      = has_integer_scale (r720p AspectRatio.SIXTEEN_NINE) (r360p AspectRatio.SIXTEEN_NINE) :=
  has_integer_scale_symmetric (r360p AspectRatio.SIXTEEN_NINE)
    (r720p AspectRatio.SIXTEEN_NINE) AspectRatio.SIXTEEN_NINE AspectRatio.SIXTEEN_NINE
    rfl rfl (by norm_num [r360p, Resolution.from_height])
    (by norm_num [r720p, Resolution.from_height])

/-- C10: with positive width, height and new height, `change_height(h, true)`
succeeds and leaves the observable aspect ratio unchanged: the mode is kept in
`Set` mode, and in `Dynamic` mode the width is recomputed so that
width / height is what it was. -/
theorem change_height_maintain_preserves_ratio (r : Resolution) (h : ℚ)
    (hw : 0 < r.width) (hh : 0 < r.height) (hpos : 0 < h) :
    ∃ r1, r.change_height h true = some r1 ∧ r1.aspectRatio = r.aspectRatio := by
  rcases r with ⟨w, hgt, mode⟩
  dsimp only at hw hh
  cases mode with
  | Set ar =>
    exact ⟨⟨h * ar.ratio, h, AspectRatioMode.Set ar⟩,
      change_height_true_eq ⟨w, hgt, AspectRatioMode.Set ar⟩ h ar rfl (ne_of_gt hpos),
      rfl⟩
  | Dynamic =>
    have hw0 : w ≠ 0 := ne_of_gt hw
    have hh0 : hgt ≠ 0 := ne_of_gt hh
    have hp0 : h ≠ 0 := ne_of_gt hpos
    have har : Resolution.aspectRatio ⟨w, hgt, AspectRatioMode.Dynamic⟩
        = some ⟨w / hgt⟩ := by
      rw [aspectRatio_dynamic]
      exact (try_new_eq_some w hgt ⟨w / hgt⟩).mpr ⟨hw0, hh0, rfl⟩
    refine ⟨⟨h * (⟨w / hgt⟩ : AspectRatio).ratio, h, AspectRatioMode.Dynamic⟩,
      change_height_true_eq ⟨w, hgt, AspectRatioMode.Dynamic⟩ h ⟨w / hgt⟩ har
        (ne_of_gt hpos), ?_⟩
    rw [har, aspectRatio_dynamic]
    refine (try_new_eq_some _ _ _).mpr ⟨?_, hp0, ?_⟩
    · exact mul_ne_zero hp0 (div_ne_zero hw0 hh0)
    · rw [mul_div_cancel_left₀ _ hp0]

theorem change_height_maintain_preserves_ratio_witness :
    ∃ r1, (Resolution.new 640 360).change_height 720 true = some r1 ∧
      r1.aspectRatio = (Resolution.new 640 360).aspectRatio :=
  change_height_maintain_preserves_ratio (Resolution.new 640 360) 720
    (by norm_num [Resolution.new]) (by norm_num [Resolution.new]) (by norm_num)

end BevyRes
